import Mathlib

/-!
Verification development for the rust-mpd client engine.

Strings on the wire are modelled as `List Char`; fallible operations
return `Option` or `Except`.  Components whose code lives outside the
repository's `src/` tree (only declarations, tests or callers are
present there) are modelled from the specification, as marked in the
doc comments below.  The playlist operations of `src/playlists.rs`
are embedded directly, with the foreign `libmpdclient` calls made
explicit inputs (the boolean result of a `mpd_run_*` call, the
optional pending connection error, the optional duplicated handle).
-/

namespace Mpd

/-- Error taxonomy of the core (spec section 7). -/
inductive MpdErrorKind where
  | IOError
  | Timeout
  | ProtocolError
  | ServerError
  | StateError
deriving DecidableEq, Repr

/-! ## Quoting codec (spec section 4.2)

Modelled from the spec: the Quoting Codec is not under `src/`.
Encoding: a bare token containing no whitespace, quote, or backslash
is emitted unescaped; any other token is wrapped in double quotes with
internal quote and backslash characters each escaped by a preceding
backslash.  Decoding reverses this. -/

/-- Characters which force a token to be quoted: whitespace, the double
quote and the backslash. -/
def needsQuote (c : Char) : Bool :=
  c = ' ' || c = '\t' || c = '\n' || c = '"' || c = '\\'

/-- Modelled from the spec: whether a token takes the bare-word fast path
(no whitespace, quote, or backslash) or must be quoted. -/
def needsQuoting (s : List Char) : Bool :=
  s.any needsQuote

/-- Modelled from the spec: escape the body of a quoted token, putting a
backslash before each internal quote or backslash. -/
def escapeChars : List Char → List Char
  | [] => []
  | c :: rest =>
    if c = '"' || c = '\\' then '\\' :: c :: escapeChars rest
    else c :: escapeChars rest

/-- Modelled from the spec: encode one command argument, bare-word fast
path or quote wrapping with escaping. -/
def encode (s : List Char) : List Char :=
  if needsQuoting s then '"' :: (escapeChars s ++ ['"']) else s

/-- Modelled from the spec: undo the escaping inside a quoted token.  A
backslash takes the following character verbatim; a bare quote or a
trailing backslash is malformed. -/
def unescapeChars : List Char → Option (List Char)
  | [] => some []
  | c :: rest =>
    if c = '\\' then
      match rest with
      | [] => none
      | d :: rest2 => (unescapeChars rest2).map (fun t => d :: t)
    else if c = '"' then none
    else (unescapeChars rest).map (fun t => c :: t)

/-- Modelled from the spec: decode an encoded argument.  A token starting
with a double quote must end with one and its body is unescaped; any
other token is bare and decodes to itself. -/
def decode (s : List Char) : Option (List Char) :=
  match s with
  | [] => some []
  | c :: rest =>
    if c = '"' then
      match rest.getLast? with
      | some d => if d = '"' then unescapeChars rest.dropLast else none
      | none => none
    else some (c :: rest)

theorem unescapeChars_escapeChars (s : List Char) :
    unescapeChars (escapeChars s) = some s := by
  induction s with
  | nil => rfl
  | cons c rest ih =>
    by_cases hq : c = '"'
    · simp [escapeChars, hq, unescapeChars, ih]
    · by_cases hb : c = '\\'
      · simp [escapeChars, hb, unescapeChars, ih]
      · have he : escapeChars (c :: rest) = c :: escapeChars rest := by
          simp [escapeChars, hq, hb]
        rw [he]
        unfold unescapeChars
        simp [hb, hq, ih]

theorem encode_of_needsQuoting (s : List Char) (h : needsQuoting s = true) :
    encode s = '"' :: (escapeChars s ++ ['"']) := by
  simp [encode, h]

/-- C1: decoding the encoding of any string (empty strings, strings with
quotes, backslashes, whitespace or control bytes included) returns the
string unchanged: the quoting round-trip holds. -/
theorem c1_quoting_round_trip (s : List Char) : decode (encode s) = some s := by
  by_cases h : needsQuoting s = true
  · rw [encode_of_needsQuoting s h]
    simp [decode, List.getLast?_concat, List.dropLast_concat,
      unescapeChars_escapeChars]
  · have hb : needsQuoting s = false := by
      cases hq : needsQuoting s
      · rfl
      · exact absurd hq h
    have henc : encode s = s := by simp [encode, hb]
    rw [henc]
    cases s with
    | nil => rfl
    | cons c rest =>
      have hc : ¬ c = '"' := by
        intro hcq
        have : needsQuote c = true := by simp [needsQuote, hcq]
        have : needsQuoting (c :: rest) = true := by
          simp [needsQuoting, List.any_cons, this]
        rw [this] at hb; cases hb
      simp [decode, hc]

/-! ## Command dispatcher and connection state (spec sections 3, 4.4)

Modelled from the spec: the Command Dispatcher is not under `src/`.
A connection owns its line channel exclusively; its transport is
modelled by the list of lines written so far. -/

/-- Lifecycle states of a connection (spec section 3). -/
inductive ConnState where
  | Handshaking
  | Ready
  | CommandInFlight
  | IdleBlocking
  | Closed
deriving DecidableEq, Repr

/-- Modelled from the spec: a connection with its lifecycle state, the
negotiated protocol version and the log of lines written to the
transport. -/
structure Conn where
  state : ConnState
  version : List Char
  written : List (List Char)
deriving DecidableEq, Repr

/-- A command: a verb plus an ordered sequence of arguments (spec
section 3). -/
structure Command where
  verb : List Char
  args : List (List Char)

/-- Serialize a command to one line: the verb followed by each argument
encoded by the quoting codec, separated by single spaces. -/
def serializeCommand (cmd : Command) : List Char :=
  cmd.args.foldl (fun acc a => acc ++ ' ' :: encode a) cmd.verb

/-- Modelled from the spec: the Command Dispatcher's `send`.  It fails
immediately with `StateError` when the connection is not Ready, leaving
the connection untouched; otherwise it writes the serialized command
line and moves to Command-in-flight. -/
def send (c : Conn) (cmd : Command) : Except MpdErrorKind Unit × Conn :=
  if c.state = ConnState.Ready then
    (Except.ok (),
     { state := ConnState.CommandInFlight
       version := c.version
       written := c.written ++ [serializeCommand cmd] })
  else
    (Except.error MpdErrorKind.StateError, c)

/-- C2: sending on a connection that is not Ready (undrained reader,
idle-blocked, closed, ...) fails with `StateError`, performs no write,
and leaves the connection unchanged. -/
theorem c2_send_not_ready_state_error (c : Conn) (cmd : Command)
    (h : c.state ≠ ConnState.Ready) :
    send c cmd = (Except.error MpdErrorKind.StateError, c) ∧
    (send c cmd).2.written = c.written ∧
    (send c cmd).2.state = c.state := by
  have hs : send c cmd = (Except.error MpdErrorKind.StateError, c) := by
    simp [send, h]
  exact ⟨hs, by rw [hs], by rw [hs]⟩

/-- Witness for C2: a connection with an in-flight command rejects a
further `status` command without writing. -/
theorem c2_send_not_ready_state_error_witness :
    send ⟨ConnState.CommandInFlight, [], []⟩ ⟨['s'], []⟩ =
      (Except.error MpdErrorKind.StateError,
        (⟨ConnState.CommandInFlight, [], []⟩ : Conn)) ∧
    (send ⟨ConnState.CommandInFlight, [], []⟩ ⟨['s'], []⟩).2.written = [] ∧
    (send ⟨ConnState.CommandInFlight, [], []⟩ ⟨['s'], []⟩).2.state =
      ConnState.CommandInFlight :=
  c2_send_not_ready_state_error ⟨ConnState.CommandInFlight, [], []⟩ ⟨['s'], []⟩
    (by decide)

/-! ## The playlist-listing iterator (src/playlists.rs, lines 53-63)

`MpdPlaylists::next` first tries `MpdPlaylist::from_conn` (a wrapper
over `mpd_recv_playlist`); when that yields a playlist it returns
`Some(Ok(pl))`.  When it yields nothing it consults
`FromConn::from_conn`, the connection's pending-error query: `None`
means the listing finished successfully (iterator returns `None`),
`Some(e)` means the listing ended in error (iterator returns
`Some(Err(e))`).  The two foreign calls are modelled by a receive
state: the playlists still pending on the wire and the connection's
pending error. -/

/-- Observable state of the connection as seen by the iterator: the
records still pending and the connection's stored error, queried by
`FromConn::from_conn`. -/
structure RecvState (α ε : Type) where
  pending : List α
  connErr : Option ε
deriving DecidableEq, Repr

/-- Embedding of `MpdPlaylists::next` (src/playlists.rs lines 54-62):
receive a playlist if one is pending, otherwise report the connection
error if any, otherwise end of iteration. -/
def mpdPlaylistsNext {α ε : Type} (s : RecvState α ε) :
    Option (Except ε α) × RecvState α ε :=
  match s.pending with
  | pl :: rest => (some (Except.ok pl), { pending := rest, connErr := s.connErr })
  | [] =>
    match s.connErr with
    | none => (none, s)
    | some e => (some (Except.error e), s)

/-- Repeatedly call the iterator's `next`, collecting its yields. -/
def drainIter {α ε : Type} : Nat → RecvState α ε → List (Option (Except ε α))
  | 0, _ => []
  | n + 1, s =>
    (mpdPlaylistsNext s).1 :: drainIter n (mpdPlaylistsNext s).2

/-- C3: draining the playlist iterator yields `some (ok pl)` for each
available record in order, and then exactly one terminal outcome:
`some (error e)` when the connection reports a pending error, `none`
(success) otherwise. -/
theorem c3_playlists_iterator_sequence {α ε : Type} (pls : List α)
    (err : Option ε) :
    drainIter (pls.length + 1) (RecvState.mk pls err) =
      pls.map (fun pl => some (Except.ok pl)) ++ [err.map Except.error] := by
  induction pls with
  | nil =>
    cases err with
    | none => rfl
    | some e => rfl
  | cons pl rest ih =>
    simp only [List.length_cons, drainIter, mpdPlaylistsNext, List.map_cons,
      List.cons_append]
    exact congrArg _ ih

/-! ## Reply ordering and command-list batches (spec sections 4.4, 5)

Modelled from the spec: the dispatcher and the batch layer are not
under `src/`.  The wire is a pair of FIFO queues; the client enqueues
command lines in order, the server dequeues them one at a time and
enqueues one reply per command. -/

/-- Modelled from the spec: the two FIFO directions of the stream
socket between client and server. -/
structure Wire (γ ρ : Type) where
  toServer : List γ
  toClient : List ρ
deriving DecidableEq, Repr

/-- The client writes one command line at the tail of the outgoing
queue. -/
def clientSend {γ ρ : Type} (w : Wire γ ρ) (c : γ) : Wire γ ρ :=
  { toServer := w.toServer ++ [c], toClient := w.toClient }

/-- Send a whole sequence of commands, in order, without interleaving. -/
def sendAllCmds {γ ρ : Type} (w : Wire γ ρ) : List γ → Wire γ ρ
  | [] => w
  | c :: cs => sendAllCmds (clientSend w c) cs

/-- Modelled from the spec: the server dequeues commands in FIFO order
and appends one reply per command to the client-bound queue. -/
def serverRunQueue {γ ρ : Type} (reply : γ → ρ) : List γ → List ρ → List ρ
  | [], out => out
  | c :: rest, out => serverRunQueue reply rest (out ++ [reply c])

/-- One full session: the client sends every command, then the server
drains its queue; the result is the client-bound reply stream. -/
def sessionReplies {γ ρ : Type} (reply : γ → ρ) (cmds : List γ) : List ρ :=
  serverRunQueue reply
    (sendAllCmds (Wire.mk ([] : List γ) ([] : List ρ)) cmds).toServer []

/-- Modelled from the spec: a command-list batch.  Members are executed
in order until the first failure; the ACK reports the error of the
failing member, and the replies of the members before it remain valid.
The list-index of the failure is the number of successful replies. -/
def runBatchList {γ ε ρ : Type} (exec : γ → Except ε ρ) :
    List γ → List ρ × Option ε
  | [] => ([], none)
  | c :: cs =>
    match exec c with
    | Except.ok r =>
      let rest := runBatchList exec cs
      (r :: rest.1, rest.2)
    | Except.error e => ([], some e)

theorem sendAllCmds_toServer {γ ρ : Type} (w : Wire γ ρ) (cmds : List γ) :
    (sendAllCmds w cmds).toServer = w.toServer ++ cmds := by
  induction cmds generalizing w with
  | nil => simp [sendAllCmds]
  | cons c cs ih => simp [sendAllCmds, clientSend, ih]

theorem serverRunQueue_eq_append_map {γ ρ : Type} (reply : γ → ρ)
    (queue : List γ) (out : List ρ) :
    serverRunQueue reply queue out = out ++ queue.map reply := by
  induction queue generalizing out with
  | nil => simp [serverRunQueue]
  | cons c rest ih => simp [serverRunQueue, ih]

theorem sessionReplies_eq_map {γ ρ : Type} (reply : γ → ρ) (cmds : List γ) :
    sessionReplies reply cmds = cmds.map reply := by
  simp [sessionReplies, sendAllCmds_toServer, serverRunQueue_eq_append_map]

theorem runBatchList_spec {γ ε ρ : Type} (exec : γ → Except ε ρ)
    (cmds : List γ) (rs : List ρ) (e : ε)
    (h : runBatchList exec cmds = (rs, some e)) :
    (∃ c, cmds.get? rs.length = some c ∧ exec c = Except.error e) ∧
    (∀ j r, rs.get? j = some r →
      ∃ c, cmds.get? j = some c ∧ exec c = Except.ok r) := by
  induction cmds generalizing rs with
  | nil => simp [runBatchList] at h
  | cons c cs ih =>
    cases hx : exec c with
    | error e' =>
      rw [runBatchList, hx] at h
      obtain ⟨hrs, he⟩ := Prod.mk.injEq .. ▸ h
      obtain rfl : rs = [] := hrs.symm ▸ rfl
      obtain rfl : e = e' := by
        cases he.symm ▸ (rfl : some e' = some e') with
        | refl => cases Option.some.inj he.symm; rfl
      constructor
      · exact ⟨c, rfl, hx⟩
      · intro j r hr; simp at hr
    | ok r0 =>
      rw [runBatchList, hx] at h
      cases hrec : runBatchList exec cs with
      | mk rs' a =>
        rw [hrec] at h
        simp only at h
        obtain ⟨hrs, he⟩ := Prod.mk.injEq .. ▸ h
        subst hrs
        have hcs : runBatchList exec cs = (rs', some e) := by rw [hrec, he]
        obtain ⟨⟨cf, hcf, hcf2⟩, hpre⟩ := ih rs' hcs
        constructor
        · exact ⟨cf, by simpa using hcf, hcf2⟩
        · intro j r hr
          cases j with
          | zero =>
            cases Option.some.inj hr
            exact ⟨c, rfl, hx⟩
          | succ j' =>
            obtain ⟨cj, hcj, hcj2⟩ := hpre j' r (by simpa using hr)
            exact ⟨cj, by simpa using hcj, hcj2⟩

/-- C4: replies come back in exactly the order commands were sent, one
reply per command; and in a command-list batch the per-member order is
preserved: the ACK's list-index (the count of successful replies)
points at the failing member, and every earlier reply is the reply of
the member at the same position. -/
theorem c4_reply_ordering {γ ε ρ : Type} (reply : γ → ρ)
    (exec : γ → Except ε ρ) (cmds : List γ) (rs : List ρ) (e : ε)
    (h : runBatchList exec cmds = (rs, some e)) :
    (∀ i, (sessionReplies reply cmds).get? i = (cmds.get? i).map reply) ∧
    (∃ c, cmds.get? rs.length = some c ∧ exec c = Except.error e) ∧
    (∀ j r, rs.get? j = some r →
      ∃ c, cmds.get? j = some c ∧ exec c = Except.ok r) := by
  refine ⟨fun i => ?_, runBatchList_spec exec cmds rs e h⟩
  rw [sessionReplies_eq_map]
  simp [List.get?_eq_getElem?]

/-- Concrete reply function for the C4 witness. -/
def replyW : Nat → Nat := fun n => n + 10

/-- Concrete batch executor for the C4 witness: member 1 fails. -/
def execW : Nat → Except Nat Nat :=
  fun n => if n = 1 then Except.error 7 else Except.ok (n + 10)

/-- Witness for C4: a three-member batch whose second member fails
yields the first member's reply and an ACK at list-index 1. -/
theorem c4_reply_ordering_witness :
    (∀ i, (sessionReplies replyW [0, 1, 2]).get? i =
      (([0, 1, 2] : List Nat).get? i).map replyW) ∧
    (∃ c, ([0, 1, 2] : List Nat).get? ([10] : List Nat).length = some c ∧
      execW c = Except.error 7) ∧
    (∀ j r, ([10] : List Nat).get? j = some r →
      ∃ c, ([0, 1, 2] : List Nat).get? j = some c ∧ execW c = Except.ok r) :=
  c4_reply_ordering replyW execW [0, 1, 2] [10] 7 (by decide)

/-! ## Idle controller (spec section 4.5)

Modelled from the spec: the Idle Controller is not under `src/` (only
the `tests/idle.rs` caller is).  The two-phase protocol: from Ready,
`idle` writes the idle command and blocks; from Blocked, a concurrent
flow of control may write `noidle`, moving to Cancelling; in either
Blocked or Cancelling the server eventually sends zero or more
`changed: <subsystem>` lines terminated by `OK`, which resolves to an
IdleEvent and returns the connection to Ready. -/

/-- States of the idle controller (spec section 4.5). -/
inductive IdleState where
  | Ready
  | Blocked
  | Cancelling
deriving DecidableEq, Repr

/-- Modelled from the spec: a connection as the idle controller sees
it: its idle state and the log of lines written to the transport. -/
structure IdleConn where
  state : IdleState
  written : List (List Char)
deriving DecidableEq, Repr

/-- The `idle` request line. -/
def idleLine : List Char := ['i', 'd', 'l', 'e']

/-- The `noidle` control line, the only command legal while Blocked. -/
def noidleLine : List Char := ['n', 'o', 'i', 'd', 'l', 'e']

/-- The bare `OK` terminator line. -/
def okLine : List Char := ['O', 'K']

/-- The `changed: ` key of an unsolicited idle-reply line. -/
def changedKey : List Char := ['c', 'h', 'a', 'n', 'g', 'e', 'd', ':', ' ']

/-- Modelled from the spec: enter idle from Ready, writing the idle
command and blocking. -/
def enterIdle (c : IdleConn) : Except MpdErrorKind IdleConn :=
  if c.state = IdleState.Ready then
    Except.ok { state := IdleState.Blocked, written := c.written ++ [idleLine] }
  else Except.error MpdErrorKind.StateError

/-- Modelled from the spec: cancel a blocked idle wait from a
concurrent flow of control by writing `noidle`. -/
def cancelIdle (c : IdleConn) : Except MpdErrorKind IdleConn :=
  if c.state = IdleState.Blocked then
    Except.ok { state := IdleState.Cancelling, written := c.written ++ [noidleLine] }
  else Except.error MpdErrorKind.StateError

/-- Split a `changed: <subsystem>` line into its subsystem token;
`none` when the line is not a changed-line. -/
def stripChanged (l : List Char) : Option (List Char) :=
  if l.take 9 = changedKey then some (l.drop 9) else none

/-- Modelled from the spec: parse the server's idle reply, a block of
zero or more `changed: <subsystem>` lines terminated by `OK`, into the
list of reported subsystem tokens in wire order. -/
def parseIdleReply : List (List Char) → Option (List (List Char))
  | [] => none
  | l :: rest =>
    if l = okLine then some []
    else
      match stripChanged l with
      | some sub => (parseIdleReply rest).map (fun subs => sub :: subs)
      | none => none

/-- Modelled from the spec: resolve a Blocked or Cancelling idle wait
against the server's reply lines.  The IdleEvent is the set of reported
subsystem tokens, deduplicated; the connection returns to Ready. -/
def resolveIdle (c : IdleConn) (lines : List (List Char)) :
    Option (List (List Char) × IdleConn) :=
  if c.state = IdleState.Blocked ∨ c.state = IdleState.Cancelling then
    (parseIdleReply lines).map
      (fun subs => (subs.dedup, { state := IdleState.Ready, written := c.written }))
  else none

/-- C5: from Ready, entering idle and then cancelling from a concurrent
flow of control succeeds; if the server had produced no event the wait
resolves with an empty IdleEvent and the connection is Ready again, and
if an event block had already been produced it is still reported (its
deduplicated subsystems), not discarded. -/
theorem c5_noidle_resolution (c : IdleConn) (h : c.state = IdleState.Ready) :
    ∃ c₁ c₂, enterIdle c = Except.ok c₁ ∧ cancelIdle c₁ = Except.ok c₂ ∧
      resolveIdle c₂ [okLine] =
        some ([], { state := IdleState.Ready, written := c₂.written }) ∧
      (∀ lines subs, parseIdleReply lines = some subs →
        resolveIdle c₂ lines =
          some (subs.dedup, { state := IdleState.Ready, written := c₂.written })) := by
  refine ⟨{ state := IdleState.Blocked, written := c.written ++ [idleLine] },
    { state := IdleState.Cancelling,
      written := (c.written ++ [idleLine]) ++ [noidleLine] }, ?_, ?_, ?_, ?_⟩
  · simp [enterIdle, h]
  · simp [cancelIdle]
  · simp [resolveIdle, parseIdleReply]
  · intro lines subs hp
    simp [resolveIdle, hp]

/-- Witness for C5: concretely entering and cancelling idle on a fresh
Ready connection. -/
theorem c5_noidle_resolution_witness :
    ∃ c₁ c₂, enterIdle ⟨IdleState.Ready, []⟩ = Except.ok c₁ ∧
      cancelIdle c₁ = Except.ok c₂ ∧
      resolveIdle c₂ [okLine] =
        some ([], { state := IdleState.Ready, written := c₂.written }) ∧
      (∀ lines subs, parseIdleReply lines = some subs →
        resolveIdle c₂ lines =
          some (subs.dedup, { state := IdleState.Ready, written := c₂.written })) :=
  c5_noidle_resolution ⟨IdleState.Ready, []⟩ (by decide)

/-- C6: a completed idle cycle resolves to the deduplicated set of
subsystem tokens of the changed-block: the event has no duplicates,
contains exactly the reported tokens, is empty exactly when the block
reported none (which the protocol produces only on cancellation with
nothing pending, never on a true event), and the connection is Ready. -/
theorem c6_idle_event_set (c : IdleConn) (lines : List (List Char))
    (subs : List (List Char)) (hst : c.state = IdleState.Blocked)
    (hp : parseIdleReply lines = some subs) :
    ∃ ev conn, resolveIdle c lines = some (ev, conn) ∧
      conn.state = IdleState.Ready ∧
      ev.Nodup ∧
      (∀ s, s ∈ ev ↔ s ∈ subs) ∧
      (ev = [] ↔ subs = []) ∧
      (subs ≠ [] → ev ≠ []) := by
  refine ⟨subs.dedup, { state := IdleState.Ready, written := c.written },
    ?_, rfl, subs.nodup_dedup, ?_, ?_, ?_⟩
  · simp [resolveIdle, hst, hp]
  · intro s; exact List.mem_dedup
  · exact List.dedup_eq_nil subs
  · intro hne hev; exact hne ((List.dedup_eq_nil subs).mp hev)

/-- Witness for C6: a blocked wait resolving against the block
`changed: options` / `changed: options` / `OK` yields the singleton
event containing the options subsystem. -/
theorem c6_idle_event_set_witness :
    ∃ ev conn,
      resolveIdle ⟨IdleState.Blocked, []⟩
        [changedKey ++ ['o', 'p', 't'], changedKey ++ ['o', 'p', 't'], okLine] =
        some (ev, conn) ∧
      conn.state = IdleState.Ready ∧
      ev.Nodup ∧
      (∀ s, s ∈ ev ↔ s ∈ [['o', 'p', 't'], ['o', 'p', 't']]) ∧
      (ev = [] ↔ ([['o', 'p', 't'], ['o', 'p', 't']] : List (List Char)) = []) ∧
      (([['o', 'p', 't'], ['o', 'p', 't']] : List (List Char)) ≠ [] → ev ≠ []) :=
  c6_idle_event_set ⟨IdleState.Blocked, []⟩
    [changedKey ++ ['o', 'p', 't'], changedKey ++ ['o', 'p', 't'], okLine]
    [['o', 'p', 't'], ['o', 'p', 't']] (by decide) (by decide)

/-! ## Connection lifecycle: handshake (spec section 4.6)

Modelled from the spec: the Connection Lifecycle is not under `src/`.
`connect` reads exactly one greeting line; only a line of the form
`OK MPD <version>` succeeds, storing the version; anything else is a
fatal handshake error. -/

/-- The required greeting header `OK MPD ` (seven characters). -/
def okMpdHeader : List Char := ['O', 'K', ' ', 'M', 'P', 'D', ' ']

/-- A handshake-specific fatal error, carrying the offending first
line. -/
inductive ConnectError where
  | handshakeFailed (line : List Char)
deriving DecidableEq, Repr

/-- Modelled from the spec: `connect` consumes the first line of the
incoming stream; when it starts with `OK MPD ` the rest of the line is
the stored protocol version and the connection comes up Ready with
nothing written yet; any other first line fails the handshake. -/
def connect (lines : List (List Char)) : Except ConnectError Conn :=
  match lines with
  | [] => Except.error (ConnectError.handshakeFailed [])
  | l :: _ =>
    if l.take 7 = okMpdHeader then
      Except.ok { state := ConnState.Ready, version := l.drop 7, written := [] }
    else Except.error (ConnectError.handshakeFailed l)

theorem okMpdHeader_length : okMpdHeader.length = 7 := rfl

/-- C7: `connect` reads exactly one greeting line (its result does not
depend on later lines); it succeeds, storing version `v`, if and only
if that first line is `OK MPD ` followed by `v`; every other first line
fails with the handshake error, before any command is sent (nothing is
written). -/
theorem c7_handshake (l : List Char) (rest rest2 : List (List Char)) :
    connect (l :: rest) = connect (l :: rest2) ∧
    (∀ v, connect (l :: rest) =
        Except.ok { state := ConnState.Ready, version := v, written := [] } ↔
      l = okMpdHeader ++ v) ∧
    ((¬ ∃ v, l = okMpdHeader ++ v) →
      connect (l :: rest) = Except.error (ConnectError.handshakeFailed l)) := by
  refine ⟨rfl, fun v => ?_, fun hno => ?_⟩
  · constructor
    · intro h
      by_cases ht : l.take 7 = okMpdHeader
      · simp only [connect, ht, if_pos] at h
        have hv : l.drop 7 = v := by
          have := Except.ok.inj h
          exact congrArg Conn.version this
        calc l = l.take 7 ++ l.drop 7 := (List.take_append_drop 7 l).symm
          _ = okMpdHeader ++ v := by rw [ht, hv]
      · simp [connect, ht] at h
    · intro h
      subst h
      have ht : (okMpdHeader ++ v).take 7 = okMpdHeader := by
        have := List.take_left okMpdHeader v
        rwa [okMpdHeader_length] at this
      have hd : (okMpdHeader ++ v).drop 7 = v := by
        have := List.drop_left okMpdHeader v
        rwa [okMpdHeader_length] at this
      simp [connect, ht, hd]
  · have ht : ¬ l.take 7 = okMpdHeader := by
      intro ht
      exact hno ⟨l.drop 7, by
        calc l = l.take 7 ++ l.drop 7 := (List.take_append_drop 7 l).symm
          _ = okMpdHeader ++ l.drop 7 := by rw [ht]⟩
    simp [connect, ht]

/-- Witness for C7: the greeting `OK MPD 0.19.0` connects and stores
version `0.19.0`; the greeting `ACK denied` fails the handshake. -/
theorem c7_handshake_witness :
    connect [okMpdHeader ++ ['0', '.', '1', '9']] =
      Except.ok (Conn.mk ConnState.Ready ['0', '.', '1', '9'] []) ∧
    connect [['A', 'C', 'K']] =
      Except.error (ConnectError.handshakeFailed ['A', 'C', 'K']) := by
  constructor
  · exact ((c7_handshake (okMpdHeader ++ ['0', '.', '1', '9']) [] []).2.1
      ['0', '.', '1', '9']).mpr rfl
  · refine (c7_handshake ['A', 'C', 'K'] [] []).2.2 ?_
    rintro ⟨v, hv⟩
    simp [okMpdHeader] at hv

/-! ## Playlist operations (src/playlists.rs)

Embedding of the `MpdPlaylist` methods.  A playlist handle is the
observable content of the foreign `mpd_playlist` record: its path (read
by `mpd_playlist_get_path`).  Each `mpd_run_*` foreign call is an input
boolean (its success flag); `FromConn::from_conn`, the connection's
pending-error query, is an input `Option MpdErrorKind`.  An operation's
outcome is `ok`, a returned error (`err`), or a Rust panic
(`panicked`), so that the failure-reporting channel is explicit. -/

/-- Outcome of one operation: a returned success value, a returned
error value, or a panic (an exceptional channel, not a return value). -/
inductive OpOutcome (ε ρ : Type) where
  | ok (r : ρ)
  | err (e : ε)
  | panicked (msg : List Char)
deriving DecidableEq, Repr

/-- True when the outcome was reported through the return channel (a
success or error value), false when the operation panicked. -/
def isReturnedOutcome {ε ρ : Type} : OpOutcome ε ρ → Bool
  | OpOutcome.panicked _ => false
  | _ => true

/-- The observable content of a foreign `mpd_playlist` handle: the path
returned by `mpd_playlist_get_path`. -/
structure MpdPlaylist where
  plPath : List Char
deriving DecidableEq, Repr

/-- Embedding of `MpdPlaylist::path` (src/playlists.rs lines 108-110):
read the handle's path. -/
def MpdPlaylist.path (self : MpdPlaylist) : List Char := self.plPath

/-- Embedding of `FromConn::from_conn(self.conn).unwrap()` as used in
the failure branch of every mutation (e.g. src/playlists.rs line 126):
an available connection error is returned, an absent one panics. -/
def unwrapConnErr (connErr : Option MpdErrorKind) : OpOutcome MpdErrorKind Unit :=
  match connErr with
  | some e => OpOutcome.err e
  | none => OpOutcome.panicked
      ['u', 'n', 'w', 'r', 'a', 'p', ' ', 'N', 'o', 'n', 'e']

/-- Embedding of `MpdPlaylist::push` (src/playlists.rs lines 122-128):
`mpd_run_playlist_add` on the handle's path, `Ok(())` on success, the
unwrapped connection error otherwise.  The handle is not mutated; the
path argument sent is returned for inspection. -/
def MpdPlaylist.push (self : MpdPlaylist) (runOk : Bool)
    (connErr : Option MpdErrorKind) :
    OpOutcome MpdErrorKind Unit × MpdPlaylist × List Char :=
  ((if runOk then OpOutcome.ok () else unwrapConnErr connErr), self, self.path)

/-- Embedding of `MpdPlaylist::clear` (src/playlists.rs lines 130-136). -/
def MpdPlaylist.clear (self : MpdPlaylist) (runOk : Bool)
    (connErr : Option MpdErrorKind) :
    OpOutcome MpdErrorKind Unit × MpdPlaylist × List Char :=
  ((if runOk then OpOutcome.ok () else unwrapConnErr connErr), self, self.path)

/-- Embedding of `MpdPlaylist::remove` (src/playlists.rs lines 138-144). -/
def MpdPlaylist.remove (self : MpdPlaylist) (runOk : Bool)
    (connErr : Option MpdErrorKind) :
    OpOutcome MpdErrorKind Unit × MpdPlaylist × List Char :=
  ((if runOk then OpOutcome.ok () else unwrapConnErr connErr), self, self.path)

/-- Embedding of `MpdPlaylist::move_pos` (src/playlists.rs lines
146-152). -/
def MpdPlaylist.move_pos (self : MpdPlaylist) (runOk : Bool)
    (connErr : Option MpdErrorKind) :
    OpOutcome MpdErrorKind Unit × MpdPlaylist × List Char :=
  ((if runOk then OpOutcome.ok () else unwrapConnErr connErr), self, self.path)

/-- The argument pair sent by `mpd_run_rename`: the current server-side
path and the new name. -/
structure RenameArgs where
  fromPath : List Char
  toPath : List Char
deriving DecidableEq, Repr

/-- Embedding of `MpdPlaylist::rename` (src/playlists.rs lines
154-160): `mpd_run_rename` is called with the handle's current path and
the new name; the handle itself is never written through, so the
client-side value is returned unchanged. -/
def MpdPlaylist.rename (self : MpdPlaylist) (name : List Char) (runOk : Bool)
    (connErr : Option MpdErrorKind) :
    OpOutcome MpdErrorKind Unit × MpdPlaylist × RenameArgs :=
  ((if runOk then OpOutcome.ok () else unwrapConnErr connErr), self,
    RenameArgs.mk self.path name)

/-- Embedding of `MpdPlaylist::delete` (src/playlists.rs lines 162-168). -/
def MpdPlaylist.delete (self : MpdPlaylist) (runOk : Bool)
    (connErr : Option MpdErrorKind) :
    OpOutcome MpdErrorKind Unit × MpdPlaylist × List Char :=
  ((if runOk then OpOutcome.ok () else unwrapConnErr connErr), self, self.path)

/-- Embedding of `MpdPlaylist::load` (src/playlists.rs lines 170-176). -/
def MpdPlaylist.load (self : MpdPlaylist) (runOk : Bool)
    (connErr : Option MpdErrorKind) :
    OpOutcome MpdErrorKind Unit × MpdPlaylist × List Char :=
  ((if runOk then OpOutcome.ok () else unwrapConnErr connErr), self, self.path)

/-- Embedding of `MpdPlaylist::save` (src/playlists.rs lines 178-184). -/
def MpdPlaylist.save (self : MpdPlaylist) (runOk : Bool)
    (connErr : Option MpdErrorKind) :
    OpOutcome MpdErrorKind Unit × MpdPlaylist × List Char :=
  ((if runOk then OpOutcome.ok () else unwrapConnErr connErr), self, self.path)

/-- Embedding of `Clone for MpdPlaylist` (src/playlists.rs lines
72-81): `mpd_playlist_dup` is modelled by its optional result; a null
result (out of memory) panics, a non-null result is the cloned handle. -/
def MpdPlaylist.clonePl (dupResult : Option MpdPlaylist) :
    OpOutcome MpdErrorKind MpdPlaylist :=
  match dupResult with
  | some pl => OpOutcome.ok pl
  | none => OpOutcome.panicked
      ['O', 'u', 't', ' ', 'o', 'f', ' ', 'm', 'e', 'm', 'o', 'r', 'y', '!']

theorem isReturnedOutcome_run (r : Bool) (e : MpdErrorKind) :
    isReturnedOutcome (if r then OpOutcome.ok () else unwrapConnErr (some e)) =
      true := by
  cases r <;> rfl

/-- C8 counterexample: `Clone for MpdPlaylist` (src/playlists.rs lines
72-81) reports a duplication failure by panicking (`Out of memory!`),
not through a returned error value of the taxonomy, so not every public
operation reports failure exclusively through returned error values. -/
theorem c8_clone_panics_counterexample :
    isReturnedOutcome (MpdPlaylist.clonePl none) = false ∧
    MpdPlaylist.clonePl none = OpOutcome.panicked
      ['O', 'u', 't', ' ', 'o', 'f', ' ', 'm', 'e', 'm', 'o', 'r', 'y', '!'] :=
  ⟨rfl, rfl⟩

/-- C8 (amended): every public playlist operation other than `clone`
reports failure exclusively through a returned error value of the
taxonomy, provided the connection holds a retrievable error when a
run-command fails; `clone` returns the duplicated handle on success but
panics when duplication fails (out of memory). -/
theorem c8_error_reporting (self : MpdPlaylist) (name : List Char)
    (r1 r2 r3 r4 r5 r6 r7 r8 : Bool) (connErr : Option MpdErrorKind)
    (e : MpdErrorKind) (d : MpdPlaylist) (h : connErr = some e) :
    isReturnedOutcome (self.push r1 connErr).1 = true ∧
    isReturnedOutcome (self.clear r2 connErr).1 = true ∧
    isReturnedOutcome (self.remove r3 connErr).1 = true ∧
    isReturnedOutcome (self.move_pos r4 connErr).1 = true ∧
    isReturnedOutcome (self.rename name r5 connErr).1 = true ∧
    isReturnedOutcome (self.delete r6 connErr).1 = true ∧
    isReturnedOutcome (self.load r7 connErr).1 = true ∧
    isReturnedOutcome (self.save r8 connErr).1 = true ∧
    MpdPlaylist.clonePl (some d) = OpOutcome.ok d ∧
    MpdPlaylist.clonePl none = OpOutcome.panicked
      ['O', 'u', 't', ' ', 'o', 'f', ' ', 'm', 'e', 'm', 'o', 'r', 'y', '!'] := by
  subst h
  exact ⟨isReturnedOutcome_run r1 e, isReturnedOutcome_run r2 e,
    isReturnedOutcome_run r3 e, isReturnedOutcome_run r4 e,
    isReturnedOutcome_run r5 e, isReturnedOutcome_run r6 e,
    isReturnedOutcome_run r7 e, isReturnedOutcome_run r8 e, rfl, rfl⟩

/-- Witness for C8 (amended): a concrete handle with a pending
`ServerError`, mixed run outcomes. -/
theorem c8_error_reporting_witness :
    isReturnedOutcome ((MpdPlaylist.mk ['p']).push true
      (some MpdErrorKind.ServerError)).1 = true ∧
    isReturnedOutcome ((MpdPlaylist.mk ['p']).clear false
      (some MpdErrorKind.ServerError)).1 = true ∧
    isReturnedOutcome ((MpdPlaylist.mk ['p']).remove true
      (some MpdErrorKind.ServerError)).1 = true ∧
    isReturnedOutcome ((MpdPlaylist.mk ['p']).move_pos false
      (some MpdErrorKind.ServerError)).1 = true ∧
    isReturnedOutcome ((MpdPlaylist.mk ['p']).rename ['q'] true
      (some MpdErrorKind.ServerError)).1 = true ∧
    isReturnedOutcome ((MpdPlaylist.mk ['p']).delete false
      (some MpdErrorKind.ServerError)).1 = true ∧
    isReturnedOutcome ((MpdPlaylist.mk ['p']).load true
      (some MpdErrorKind.ServerError)).1 = true ∧
    isReturnedOutcome ((MpdPlaylist.mk ['p']).save false
      (some MpdErrorKind.ServerError)).1 = true ∧
    MpdPlaylist.clonePl (some (MpdPlaylist.mk ['p'])) =
      OpOutcome.ok (MpdPlaylist.mk ['p']) ∧
    MpdPlaylist.clonePl none = OpOutcome.panicked
      ['O', 'u', 't', ' ', 'o', 'f', ' ', 'm', 'e', 'm', 'o', 'r', 'y', '!'] :=
  c8_error_reporting (MpdPlaylist.mk ['p']) ['q'] true false true false true
    false true false (some MpdErrorKind.ServerError) MpdErrorKind.ServerError
    (MpdPlaylist.mk ['p']) rfl

/-- C9: under the precondition that the connection holds a retrievable
error (`FromConn::from_conn` returns `Some e`), every playlist mutation
returns `Ok(())` exactly when its run-command succeeds and that
connection error otherwise, and the `unwrap` in the failure branch
never panics. -/
theorem c9_mutations_ok_or_err (self : MpdPlaylist) (name : List Char)
    (r1 r2 r3 r4 r5 r6 r7 r8 : Bool) (connErr : Option MpdErrorKind)
    (e : MpdErrorKind) (h : connErr = some e) :
    (self.push r1 connErr).1 =
      (if r1 then OpOutcome.ok () else OpOutcome.err e) ∧
    (self.clear r2 connErr).1 =
      (if r2 then OpOutcome.ok () else OpOutcome.err e) ∧
    (self.remove r3 connErr).1 =
      (if r3 then OpOutcome.ok () else OpOutcome.err e) ∧
    (self.move_pos r4 connErr).1 =
      (if r4 then OpOutcome.ok () else OpOutcome.err e) ∧
    (self.rename name r5 connErr).1 =
      (if r5 then OpOutcome.ok () else OpOutcome.err e) ∧
    (self.delete r6 connErr).1 =
      (if r6 then OpOutcome.ok () else OpOutcome.err e) ∧
    (self.load r7 connErr).1 =
      (if r7 then OpOutcome.ok () else OpOutcome.err e) ∧
    (self.save r8 connErr).1 =
      (if r8 then OpOutcome.ok () else OpOutcome.err e) ∧
    (∀ m, unwrapConnErr connErr ≠ OpOutcome.panicked m) := by
  subst h
  refine ⟨rfl, rfl, rfl, rfl, rfl, rfl, rfl, rfl, ?_⟩
  intro m hm
  simp [unwrapConnErr] at hm

/-- Witness for C9: a concrete handle with a pending `ServerError`;
failing runs return the error, succeeding runs return unit. -/
theorem c9_mutations_ok_or_err_witness :
    ((MpdPlaylist.mk ['p']).push false (some MpdErrorKind.ServerError)).1 =
      (if false then OpOutcome.ok () else OpOutcome.err
        MpdErrorKind.ServerError) ∧
    ((MpdPlaylist.mk ['p']).clear true (some MpdErrorKind.ServerError)).1 =
      (if true then OpOutcome.ok () else OpOutcome.err
        MpdErrorKind.ServerError) ∧
    ((MpdPlaylist.mk ['p']).remove false (some MpdErrorKind.ServerError)).1 =
      (if false then OpOutcome.ok () else OpOutcome.err
        MpdErrorKind.ServerError) ∧
    ((MpdPlaylist.mk ['p']).move_pos true (some MpdErrorKind.ServerError)).1 =
      (if true then OpOutcome.ok () else OpOutcome.err
        MpdErrorKind.ServerError) ∧
    ((MpdPlaylist.mk ['p']).rename ['q'] false
      (some MpdErrorKind.ServerError)).1 =
      (if false then OpOutcome.ok () else OpOutcome.err
        MpdErrorKind.ServerError) ∧
    ((MpdPlaylist.mk ['p']).delete true (some MpdErrorKind.ServerError)).1 =
      (if true then OpOutcome.ok () else OpOutcome.err
        MpdErrorKind.ServerError) ∧
    ((MpdPlaylist.mk ['p']).load false (some MpdErrorKind.ServerError)).1 =
      (if false then OpOutcome.ok () else OpOutcome.err
        MpdErrorKind.ServerError) ∧
    ((MpdPlaylist.mk ['p']).save true (some MpdErrorKind.ServerError)).1 =
      (if true then OpOutcome.ok () else OpOutcome.err
        MpdErrorKind.ServerError) ∧
    (∀ m, unwrapConnErr (some MpdErrorKind.ServerError) ≠
      OpOutcome.panicked m) :=
  c9_mutations_ok_or_err (MpdPlaylist.mk ['p']) ['q'] false true false true
    false true false true (some MpdErrorKind.ServerError)
    MpdErrorKind.ServerError rfl

/-- C10: a successful `rename(name)` sends the rename command addressed
by the handle's current server-side path but leaves the client-side
value unchanged: `path()` still returns the pre-rename path, and a
subsequent operation on the same handle still addresses the old name. -/
theorem c10_rename_keeps_old_path (self : MpdPlaylist)
    (name name2 : List Char) (runOk r2 : Bool)
    (connErr ce2 : Option MpdErrorKind) (h : runOk = true) :
    (self.rename name runOk connErr).1 = OpOutcome.ok () ∧
    (self.rename name runOk connErr).2.1 = self ∧
    (self.rename name runOk connErr).2.2.fromPath = self.path ∧
    ((self.rename name runOk connErr).2.1).path = self.path ∧
    (((self.rename name runOk connErr).2.1).rename name2 r2 ce2).2.2.fromPath =
      self.path := by
  subst h
  exact ⟨rfl, rfl, rfl, rfl, rfl⟩

/-- Witness for C10: renaming the handle for `old` to `new` still sends
`old` as the addressed path, and the handle keeps path `old`. -/
theorem c10_rename_keeps_old_path_witness :
    ((MpdPlaylist.mk ['o']).rename ['n'] true none).1 = OpOutcome.ok () ∧
    ((MpdPlaylist.mk ['o']).rename ['n'] true none).2.1 =
      MpdPlaylist.mk ['o'] ∧
    ((MpdPlaylist.mk ['o']).rename ['n'] true none).2.2.fromPath =
      (MpdPlaylist.mk ['o']).path ∧
    (((MpdPlaylist.mk ['o']).rename ['n'] true none).2.1).path =
      (MpdPlaylist.mk ['o']).path ∧
    ((((MpdPlaylist.mk ['o']).rename ['n'] true none).2.1).rename ['m'] false
      none).2.2.fromPath = (MpdPlaylist.mk ['o']).path :=
  c10_rename_keeps_old_path (MpdPlaylist.mk ['o']) ['n'] ['m'] true false
    none none rfl

end Mpd
